import Mathlib

/-!
Shallow embedding of the `flogger` data-logging core (`flogger/logger.py`).

Values and time keys are modelled as `Int`.  Python dictionaries are
association lists that keep insertion order: setting an existing key updates
the value in place, setting a fresh key appends at the end, and reading a
missing key is a `keyError`.  The `Manager.Namespace` of managed resources
becomes the `Managed` structure, one field per managed container, keyed by
entry name exactly as in the source.

Handlers are pure data: an identity `hid` plus a `fails` flag saying whether
the Python callable raises when invoked.  Invoking a handler produces an
`HEvent` recording the arguments it received; the `try/except` around each
call in the source means every handler of a list is invoked whether or not
earlier ones failed, which is why `invokeAll` maps over the whole list.

The worker pool is modelled with the default single-worker FIFO semantics:
`push`/`dump`/`reset` enqueue a `Uow` in `futures`, and `wait` executes the
queued tasks in order.  A task that raises (a `keyError` on an undeclared
entry) is captured by the completion callback: `runTaskCaught` reports it by
producing no events and leaving the state unchanged, which is faithful
because in every state reachable through the facade the entry-keyed
containers share one key set, so a failing task raises before any mutation.
-/

deriving instance DecidableEq for Except

/-- Lookup in a Python-style dict (association list); `none` is a KeyError. -/
def dictGet {κ α : Type} [DecidableEq κ] : List (κ × α) → κ → Option α
  | [], _ => none
  | (k', v) :: rest, k => if k' = k then some v else dictGet rest k

/-- Python-style dict assignment: update an existing key in place, otherwise
append the new binding at the end (insertion order). -/
def dictSet {κ α : Type} [DecidableEq κ] : List (κ × α) → κ → α → List (κ × α)
  | [], k, v => [(k, v)]
  | (k', v') :: rest, k, v =>
    if k' = k then (k, v) :: rest else (k', v') :: dictSet rest k v

/-- A pluggable handler: an identity and whether its Python callable raises. -/
structure Handler where
  hid : Nat
  fails : Bool
deriving DecidableEq, Repr

/-- One handler invocation: which handler ran, on which entry, with which
series snapshot and root path. -/
structure HEvent where
  hid : Nat
  entry : String
  data : List (Int × Int)
  path : String
deriving DecidableEq, Repr

/-- Synchronous errors of the facade and of units of work.  `keyError` is
Python's KeyError on a missing dict key; the others are the generic
`Exception`s the source raises, named after the spec's taxonomy. -/
inductive Err where
  | keyError (key : String)
  | duplicateEntry
  | configurationLocked
  | unknownPool (kind : String)
  | invalidMode (mode : String)
deriving DecidableEq, Repr

/-- The managed namespace shared with the workers (`self._managed`). -/
structure Managed where
  name : String
  path : String
  entries : List String
  data : List (String × List (Int × Int))
  lockers : List String
  counters : List (String × Nat)
  on_push_callables : List (String × List Handler)
  on_reset_callables : List (String × List Handler)
  on_dump_callables : List (String × List Handler)
deriving DecidableEq, Repr

/-- The for-loop over a handler list: each call is wrapped in `try/except`,
so every handler is invoked (and its event recorded) whether it fails or
not. -/
def invokeAll (hs : List Handler) (entry : String) (d : List (Int × Int))
    (path : String) : List HEvent :=
  hs.map fun h => { hid := h.hid, entry := entry, data := d, path := path }

/-- `DataLogger._push`: under the entry's lock, store the value at the time
key, increment the counter, then invoke every `on_push` handler with the
entry name, the whole current series and the root path. -/
def uowPush (m : Managed) (entry : String) (value time : Int) :
    Except Err (Managed × List HEvent) :=
  if entry ∈ m.lockers then
    match dictGet m.data entry with
    | none => .error (.keyError entry)
    | some d =>
      let d' := dictSet d time value
      let m := { m with data := dictSet m.data entry d' }
      match dictGet m.counters entry with
      | none => .error (.keyError entry)
      | some c =>
        let m := { m with counters := dictSet m.counters entry (c + 1) }
        match dictGet m.on_push_callables entry with
        | none => .error (.keyError entry)
        | some hs => .ok (m, invokeAll hs entry d' m.path)
  else .error (.keyError entry)

/-- `DataLogger._dump`: under the entry's lock, invoke every `on_dump`
handler with the current series; no mutation. -/
def uowDump (m : Managed) (entry : String) :
    Except Err (Managed × List HEvent) :=
  if entry ∈ m.lockers then
    match dictGet m.on_dump_callables entry with
    | none => .error (.keyError entry)
    | some hs =>
      match dictGet m.data entry with
      | none => .error (.keyError entry)
      | some d => .ok (m, invokeAll hs entry d m.path)
  else .error (.keyError entry)

/-- `DataLogger._reset`: under the entry's lock, invoke every `on_reset`
handler with the series as it stands, then clear the series and zero the
counter. -/
def uowReset (m : Managed) (entry : String) :
    Except Err (Managed × List HEvent) :=
  if entry ∈ m.lockers then
    match dictGet m.on_reset_callables entry with
    | none => .error (.keyError entry)
    | some hs =>
      match dictGet m.data entry with
      | none => .error (.keyError entry)
      | some d =>
        let evs := invokeAll hs entry d m.path
        let m := { m with data := dictSet m.data entry [] }
        .ok ({ m with counters := dictSet m.counters entry 0 }, evs)
  else .error (.keyError entry)

/-- A unit of work submitted to the pool. -/
inductive Uow where
  | push (entry : String) (value : Int) (time : Int)
  | dump (entry : String)
  | reset (entry : String)
deriving DecidableEq, Repr

/-- Dispatch a task to the corresponding static unit-of-work function. -/
def runTask (m : Managed) : Uow → Except Err (Managed × List HEvent)
  | .push e v t => uowPush m e v t
  | .dump e => uowDump m e
  | .reset e => uowReset m e

/-- A task executed by the pool, with `_futures_callback` attached: if the
closure raises, the exception is reported through diagnostics and never
re-raised.  A failing task raises on its first dict lookup, before any
mutation, so the state is unchanged. -/
def runTaskCaught (m : Managed) (t : Uow) : Managed × List HEvent :=
  match runTask m t with
  | .ok r => r
  | .error _ => (m, [])

/-- Run queued tasks in submission order (single-worker FIFO pool). -/
def runTasks (m : Managed) : List Uow → Managed × List HEvent
  | [] => (m, [])
  | t :: ts =>
    let r := runTaskCaught m t
    let r' := runTasks r.1 ts
    (r'.1, r.2 ++ r'.2)

/-- Worker pool configuration chosen by `set_pool`. -/
structure PoolCfg where
  kind : String
  n_par : Nat
deriving DecidableEq, Repr

/-- The facade: managed namespace, mode gate, pool and pending futures. -/
structure DataLogger where
  managed : Managed
  mode : String
  pool : PoolCfg
  futures : List Uow
deriving DecidableEq, Repr

/-- `DataLogger.__init__`: empty registry, active mode, single-worker
thread pool, no pending futures. -/
def DataLogger.init : DataLogger where
  managed :=
    { name := "data-logger", path := ".", entries := [], data := []
      lockers := [], counters := [], on_push_callables := []
      on_reset_callables := [], on_dump_callables := [] }
  mode := "active"
  pool := { kind := "thread", n_par := 1 }
  futures := []

/-- `set_path`: refused once any entry is registered. -/
def DataLogger.set_path (lg : DataLogger) (path : String) :
    Except Err DataLogger :=
  if lg.managed.lockers.length ≠ 0 then .error .configurationLocked
  else .ok { lg with managed := { lg.managed with path := path } }

/-- `set_mode`: asserts the mode is known, then records it. -/
def DataLogger.set_mode (lg : DataLogger) (mode : String) :
    Except Err DataLogger :=
  if mode = "active" ∨ mode = "passive" then .ok { lg with mode := mode }
  else .error (.invalidMode mode)

/-- `set_pool`: refused once any entry is registered; otherwise selects the
thread or process executor, anything else is unknown. -/
def DataLogger.set_pool (lg : DataLogger) (pool : String) (n_par : Nat) :
    Except Err DataLogger :=
  if lg.managed.lockers.length ≠ 0 then .error .configurationLocked
  else if pool = "thread" then
    .ok { lg with pool := { kind := "thread", n_par := n_par } }
  else if pool = "process" then
    .ok { lg with pool := { kind := "process", n_par := n_par } }
  else .error (.unknownPool pool)

/-- `set_name`: records the name.  The source performs no configuration-lock
check here. -/
def DataLogger.set_name (lg : DataLogger) (name : String) : DataLogger :=
  { lg with managed := { lg.managed with name := name } }

/-- `declare`: refuse a duplicate name, otherwise register the entry with an
empty series, counter 0 and the three handler lists. -/
def DataLogger.declare (lg : DataLogger) (entry : String)
    (on_push_callables on_dump_callables on_reset_callables : List Handler) :
    Except Err DataLogger :=
  if entry ∈ lg.managed.entries then .error .duplicateEntry
  else
    .ok { lg with managed :=
      { lg.managed with
        entries := lg.managed.entries ++ [entry]
        lockers := lg.managed.lockers ++ [entry]
        data := dictSet lg.managed.data entry []
        counters := dictSet lg.managed.counters entry 0
        on_push_callables := dictSet lg.managed.on_push_callables entry on_push_callables
        on_reset_callables := dictSet lg.managed.on_reset_callables entry on_reset_callables
        on_dump_callables := dictSet lg.managed.on_dump_callables entry on_dump_callables } }

/-- `push`: in active mode, submit a push task; a missing time key is
resolved to the entry's current counter at submission time (a KeyError there
is synchronous).  In passive mode, a no-op. -/
def DataLogger.push (lg : DataLogger) (entry : String) (value : Int)
    (time : Option Int) : Except Err DataLogger :=
  if lg.mode = "active" then
    match time with
    | some t => .ok { lg with futures := lg.futures ++ [Uow.push entry value t] }
    | none =>
      match dictGet lg.managed.counters entry with
      | none => .error (.keyError entry)
      | some c =>
        .ok { lg with futures := lg.futures ++ [Uow.push entry value (c : Int)] }
  else .ok lg

/-- `dump`: in active mode, submit one dump task per registered entry, in
registration order.  In passive mode, a no-op. -/
def DataLogger.dump (lg : DataLogger) : DataLogger :=
  if lg.mode = "active" then
    { lg with futures := lg.futures ++ lg.managed.entries.map Uow.dump }
  else lg

/-- `reset`: in active mode, submit a reset task.  In passive mode, a
no-op. -/
def DataLogger.reset (lg : DataLogger) (entry : String) : DataLogger :=
  if lg.mode = "active" then
    { lg with futures := lg.futures ++ [Uow.reset entry] }
  else lg

/-- `get_entry_length`: the entry's current counter. -/
def DataLogger.get_entry_length (lg : DataLogger) (entry : String) :
    Except Err Nat :=
  match dictGet lg.managed.counters entry with
  | none => .error (.keyError entry)
  | some c => .ok c

/-- Python's comparison on the `(key, value)` pairs of `dict.items()`. -/
def pairLe (a b : Int × Int) : Prop :=
  a.1 < b.1 ∨ (a.1 = b.1 ∧ a.2 ≤ b.2)

instance : DecidableRel pairLe := fun a b =>
  inferInstanceAs (Decidable (a.1 < b.1 ∨ (a.1 = b.1 ∧ a.2 ≤ b.2)))

instance : IsTotal (Int × Int) pairLe where
  total a b := by
    rcases lt_trichotomy a.1 b.1 with h | h | h
    · exact Or.inl (Or.inl h)
    · rcases le_total a.2 b.2 with h2 | h2
      · exact Or.inl (Or.inr ⟨h, h2⟩)
      · exact Or.inr (Or.inr ⟨h.symm, h2⟩)
    · exact Or.inr (Or.inl h)

instance : IsTrans (Int × Int) pairLe where
  trans a b c hab hbc := by
    rcases hab with h | ⟨h, h2⟩ <;> rcases hbc with h' | ⟨h', h2'⟩
    · exact Or.inl (h.trans h')
    · exact Or.inl (h'.symm ▸ h)
    · exact Or.inl (h ▸ h')
    · exact Or.inr ⟨h.trans h', h2.trans h2'⟩

instance : IsAntisymm (Int × Int) pairLe where
  antisymm a b hab hba := by
    rcases hab with h | ⟨h, h2⟩ <;> rcases hba with h' | ⟨h', h2'⟩
    · exact absurd (h.trans h') (lt_irrefl _)
    · exact absurd h (h' ▸ lt_irrefl _)
    · exact absurd h' (h ▸ lt_irrefl _)
    · exact Prod.ext h (le_antisymm h2 h2')

/-- `sorted(d.items())`: the item pairs in ascending order. -/
def sortPairs (d : List (Int × Int)) : List (Int × Int) :=
  List.insertionSort pairLe d

/-- `get_serie`: the values of the entry's series, sorted ascending by
key. -/
def DataLogger.get_serie (lg : DataLogger) (entry : String) :
    Except Err (List Int) :=
  match dictGet lg.managed.data entry with
  | none => .error (.keyError entry)
  | some d => .ok ((sortPairs d).map Prod.snd)

/-- `wait`: run every pending future to completion (reporting, not raising,
any failure), then clear the pending set. -/
def DataLogger.wait (lg : DataLogger) : DataLogger × List HEvent :=
  let r := runTasks lg.managed lg.futures
  ({ lg with managed := r.1, futures := [] }, r.2)

/-- An entry is fully registered: `declare` put it in `entries`, `lockers`
and every entry-keyed dict. -/
def DeclaredIn (m : Managed) (e : String) : Prop :=
  e ∈ m.lockers ∧ (dictGet m.data e).isSome ∧ (dictGet m.counters e).isSome ∧
    (dictGet m.on_push_callables e).isSome ∧
    (dictGet m.on_reset_callables e).isSome ∧
    (dictGet m.on_dump_callables e).isSome

instance (m : Managed) (e : String) : Decidable (DeclaredIn m e) :=
  inferInstanceAs (Decidable (_ ∧ _))

/-- An entry name never declared: absent from `entries`, `lockers` and the
data and counter dicts. -/
def FreshIn (m : Managed) (e : String) : Prop :=
  e ∉ m.entries ∧ e ∉ m.lockers ∧ dictGet m.data e = none ∧
    dictGet m.counters e = none

instance (m : Managed) (e : String) : Decidable (FreshIn m e) :=
  inferInstanceAs (Decidable (_ ∧ _))

/-- How one executed task transforms entry `e`'s counter: a completed push
to `e` adds one, a reset of `e` zeroes it, anything else leaves it. -/
def countStep (e : String) (c : Nat) : Uow → Nat
  | .push e' _ _ => if e' = e then c + 1 else c
  | .reset e' => if e' = e then 0 else c
  | .dump _ => c

/-- Entry `e`'s counter after executing a task list, starting from `c`. -/
def countSpec (e : String) (c : Nat) (ts : List Uow) : Nat :=
  ts.foldl (countStep e) c

/-- Issue one push per `(time, value)` pair, in list order (a caller
driving the facade like the test script does). -/
def pushAll (lg : DataLogger) (e : String) :
    List (Int × Int) → Except Err DataLogger
  | [] => .ok lg
  | p :: ps => (lg.push e p.2 (some p.1)).bind fun lg' => pushAll lg' e ps

/-- The spec's concrete scenario: declare `"Loss"` with no handlers, issue
the given pushes, then drain. -/
def lossScenario (ps : List (Int × Int)) :
    Except Err (DataLogger × List HEvent) :=
  (DataLogger.init.declare "Loss" [] [] []).bind fun lg =>
  (pushAll lg "Loss" ps).map DataLogger.wait

example :
    (lossScenario [(1, 10), (2, 20), (5, 30)]).map (fun r =>
      (r.1.get_serie "Loss", r.1.get_entry_length "Loss"))
    = .ok (.ok [10, 20, 30], .ok 3) := by decide

example :
    (lossScenario [(5, 30), (1, 10), (2, 20)]).map (fun r =>
      (r.1.get_serie "Loss", r.1.get_entry_length "Loss"))
    = .ok (.ok [10, 20, 30], .ok 3) := by decide

example :
    (lossScenario [(7, 10), (7, 20)]).map (fun r =>
      (r.1.get_serie "Loss", r.1.get_entry_length "Loss"))
    = .ok (.ok [20], .ok 2) := by decide

theorem dictGet_dictSet_self {κ α : Type} [DecidableEq κ]
    (d : List (κ × α)) (k : κ) (v : α) :
    dictGet (dictSet d k v) k = some v := by
  induction d with
  | nil => simp [dictGet, dictSet]
  | cons p rest ih =>
    by_cases h : p.1 = k <;> simp [dictGet, dictSet, h, ih]

theorem dictGet_dictSet_ne {κ α : Type} [DecidableEq κ]
    (d : List (κ × α)) (k k' : κ) (v : α) (h : k ≠ k') :
    dictGet (dictSet d k v) k' = dictGet d k' := by
  induction d with
  | nil => simp [dictGet, dictSet, h]
  | cons p rest ih =>
    by_cases hp : p.1 = k <;> simp [dictGet, dictSet, hp, h, ih]

theorem uowPush_ok_of_declared (m : Managed) (e : String) (v t : Int)
    (d : List (Int × Int)) (c : Nat) (hs : List Handler)
    (hl : e ∈ m.lockers) (hdata : dictGet m.data e = some d)
    (hc : dictGet m.counters e = some c)
    (hhs : dictGet m.on_push_callables e = some hs) :
    uowPush m e v t =
      .ok ({ m with data := dictSet m.data e (dictSet d t v),
                    counters := dictSet m.counters e (c + 1) },
           invokeAll hs e (dictSet d t v) m.path) := by
  simp [uowPush, hl, hdata, hc, hhs]

theorem uowReset_ok_of_declared (m : Managed) (e : String)
    (d : List (Int × Int)) (hs : List Handler)
    (hl : e ∈ m.lockers) (hdata : dictGet m.data e = some d)
    (hhs : dictGet m.on_reset_callables e = some hs) :
    uowReset m e =
      .ok ({ m with data := dictSet m.data e [],
                    counters := dictSet m.counters e 0 },
           invokeAll hs e d m.path) := by
  simp [uowReset, hl, hdata, hhs]

theorem uowDump_ok_of_declared (m : Managed) (e : String)
    (d : List (Int × Int)) (hs : List Handler)
    (hl : e ∈ m.lockers) (hdata : dictGet m.data e = some d)
    (hhs : dictGet m.on_dump_callables e = some hs) :
    uowDump m e = .ok (m, invokeAll hs e d m.path) := by
  simp [uowDump, hl, hdata, hhs]

theorem dictGet_dictSet_isSome {κ α : Type} [DecidableEq κ]
    (d : List (κ × α)) (k k' : κ) (v : α) (h : (dictGet d k').isSome) :
    (dictGet (dictSet d k v) k').isSome := by
  by_cases hk : k = k'
  · subst hk; simp [dictGet_dictSet_self]
  · rwa [dictGet_dictSet_ne _ _ _ _ hk]

theorem uowPush_cases (m : Managed) (e' : String) (v t : Int) :
    uowPush m e' v t = .error (.keyError e') ∨
    ∃ d c hs, dictGet m.data e' = some d ∧ dictGet m.counters e' = some c ∧
      dictGet m.on_push_callables e' = some hs ∧ e' ∈ m.lockers ∧
      uowPush m e' v t =
        .ok ({ m with data := dictSet m.data e' (dictSet d t v),
                      counters := dictSet m.counters e' (c + 1) },
             invokeAll hs e' (dictSet d t v) m.path) := by
  by_cases hl : e' ∈ m.lockers
  · rcases hdata : dictGet m.data e' with _ | d
    · left; simp [uowPush, hl, hdata]
    · rcases hc : dictGet m.counters e' with _ | c
      · left; simp [uowPush, hl, hdata, hc]
      · rcases hhs : dictGet m.on_push_callables e' with _ | hs
        · left; simp [uowPush, hl, hdata, hc, hhs]
        · exact Or.inr ⟨d, c, hs, rfl, rfl, rfl, hl,
            uowPush_ok_of_declared m e' v t d c hs hl hdata hc hhs⟩
  · left; simp [uowPush, hl]

theorem uowDump_cases (m : Managed) (e' : String) :
    uowDump m e' = .error (.keyError e') ∨
    ∃ d hs, dictGet m.data e' = some d ∧
      dictGet m.on_dump_callables e' = some hs ∧ e' ∈ m.lockers ∧
      uowDump m e' = .ok (m, invokeAll hs e' d m.path) := by
  by_cases hl : e' ∈ m.lockers
  · rcases hhs : dictGet m.on_dump_callables e' with _ | hs
    · left; simp [uowDump, hl, hhs]
    · rcases hdata : dictGet m.data e' with _ | d
      · left; simp [uowDump, hl, hhs, hdata]
      · exact Or.inr ⟨d, hs, rfl, rfl, hl,
          uowDump_ok_of_declared m e' d hs hl hdata hhs⟩
  · left; simp [uowDump, hl]

theorem uowReset_cases (m : Managed) (e' : String) :
    uowReset m e' = .error (.keyError e') ∨
    ∃ d hs, dictGet m.data e' = some d ∧
      dictGet m.on_reset_callables e' = some hs ∧ e' ∈ m.lockers ∧
      uowReset m e' =
        .ok ({ m with data := dictSet m.data e' [],
                      counters := dictSet m.counters e' 0 },
             invokeAll hs e' d m.path) := by
  by_cases hl : e' ∈ m.lockers
  · rcases hhs : dictGet m.on_reset_callables e' with _ | hs
    · left; simp [uowReset, hl, hhs]
    · rcases hdata : dictGet m.data e' with _ | d
      · left; simp [uowReset, hl, hhs, hdata]
      · exact Or.inr ⟨d, hs, rfl, rfl, hl,
          uowReset_ok_of_declared m e' d hs hl hdata hhs⟩
  · left; simp [uowReset, hl]

theorem declaredIn_runTaskCaught (m : Managed) (t : Uow) (e : String)
    (hd : DeclaredIn m e) : DeclaredIn (runTaskCaught m t).1 e := by
  obtain ⟨hl, hdat, hcs, hps, hrs, hds⟩ := hd
  cases t with
  | push e' v t' =>
    rcases uowPush_cases m e' v t' with h | ⟨d, c', hs, hdata, hc', hhs, hl', h⟩
    · rw [runTaskCaught, runTask, h]
      exact ⟨hl, hdat, hcs, hps, hrs, hds⟩
    · rw [runTaskCaught, runTask, h]
      exact ⟨hl, dictGet_dictSet_isSome _ _ _ _ hdat,
        dictGet_dictSet_isSome _ _ _ _ hcs, hps, hrs, hds⟩
  | dump e' =>
    rcases uowDump_cases m e' with h | ⟨d, hs, hdata, hhs, hl', h⟩ <;>
      rw [runTaskCaught, runTask, h] <;> exact ⟨hl, hdat, hcs, hps, hrs, hds⟩
  | reset e' =>
    rcases uowReset_cases m e' with h | ⟨d, hs, hdata, hhs, hl', h⟩
    · rw [runTaskCaught, runTask, h]
      exact ⟨hl, hdat, hcs, hps, hrs, hds⟩
    · rw [runTaskCaught, runTask, h]
      exact ⟨hl, dictGet_dictSet_isSome _ _ _ _ hdat,
        dictGet_dictSet_isSome _ _ _ _ hcs, hps, hrs, hds⟩

theorem counters_runTaskCaught (m : Managed) (t : Uow) (e : String) (c : Nat)
    (hd : DeclaredIn m e) (hc : dictGet m.counters e = some c) :
    dictGet (runTaskCaught m t).1.counters e = some (countStep e c t) := by
  obtain ⟨hl, hdat, hcs, hps, hrs, hds⟩ := hd
  cases t with
  | push e' v t' =>
    by_cases he : e' = e
    · subst he
      obtain ⟨d, hdata⟩ := Option.isSome_iff_exists.mp hdat
      obtain ⟨hs, hhs⟩ := Option.isSome_iff_exists.mp hps
      rw [runTaskCaught, runTask,
        uowPush_ok_of_declared m e' v t' d c hs hl hdata hc hhs]
      simp [countStep, dictGet_dictSet_self]
    · rcases uowPush_cases m e' v t' with h | ⟨d, c', hs, hdata, hc', hhs, hl', h⟩ <;>
        rw [runTaskCaught, runTask, h] <;>
        simp [countStep, he, hc, dictGet_dictSet_ne _ _ _ _ he]
  | dump e' =>
    rcases uowDump_cases m e' with h | ⟨d, hs, hdata, hhs, hl', h⟩ <;>
      rw [runTaskCaught, runTask, h] <;> simp [countStep, hc]
  | reset e' =>
    by_cases he : e' = e
    · subst he
      obtain ⟨d, hdata⟩ := Option.isSome_iff_exists.mp hdat
      obtain ⟨hs, hhs⟩ := Option.isSome_iff_exists.mp hrs
      rw [runTaskCaught, runTask, uowReset_ok_of_declared m e' d hs hl hdata hhs]
      simp [countStep, dictGet_dictSet_self]
    · rcases uowReset_cases m e' with h | ⟨d, hs, hdata, hhs, hl', h⟩ <;>
        rw [runTaskCaught, runTask, h] <;>
        simp [countStep, he, hc, dictGet_dictSet_ne _ _ _ _ he]

theorem counters_runTasks (m : Managed) (ts : List Uow) (e : String) (c : Nat)
    (hd : DeclaredIn m e) (hc : dictGet m.counters e = some c) :
    dictGet (runTasks m ts).1.counters e = some (countSpec e c ts) := by
  induction ts generalizing m c with
  | nil => simpa [runTasks, countSpec]
  | cons t ts ih =>
    rw [runTasks]
    exact ih (runTaskCaught m t).1 (countStep e c t)
      (declaredIn_runTaskCaught m t e hd)
      (counters_runTaskCaught m t e c hd hc)

/-- C1: after `wait()`, `get_entry_length e` equals the counter evolved over
the executed units of work: starting from the entry's current counter, each
completed push to `e` adds exactly one and each reset of `e` returns it to
0, whatever entries the other tasks target and in whatever order the tasks
run (the futures list is arbitrary); moreover a successful `declare` starts
the new entry's counter at 0. -/
theorem c1_counter_tracks_pushes (lg : DataLogger) (e : String) (c : Nat)
    (hd : DeclaredIn lg.managed e)
    (hc : dictGet lg.managed.counters e = some c) :
    (lg.wait).1.get_entry_length e = .ok (countSpec e c lg.futures) ∧
    ∀ (lg₂ lg₃ : DataLogger) (e₂ : String) (p d r : List Handler),
      lg₂.declare e₂ p d r = .ok lg₃ →
      dictGet lg₃.managed.counters e₂ = some 0 := by
  constructor
  · have h := counters_runTasks lg.managed lg.futures e c hd hc
    simp [DataLogger.wait, DataLogger.get_entry_length, h]
  · intro lg₂ lg₃ e₂ p d r h
    by_cases hm : e₂ ∈ lg₂.managed.entries
    · simp [DataLogger.declare, hm] at h
    · simp [DataLogger.declare, hm] at h
      simp [← h, dictGet_dictSet_self]

/-- A concrete logger: `"Loss"` declared, two pushes pending. -/
def sampleLogger : DataLogger :=
  ((DataLogger.init.declare "Loss" [] [] []).bind fun lg =>
    (lg.push "Loss" 10 (some 1)).bind fun lg =>
    lg.push "Loss" 20 (some 2)).toOption.getD DataLogger.init

theorem c1_counter_tracks_pushes_witness :
    (DeclaredIn sampleLogger.managed "Loss" ∧
      dictGet sampleLogger.managed.counters "Loss" = some 0) ∧
    (sampleLogger.wait).1.get_entry_length "Loss" =
      .ok (countSpec "Loss" 0 sampleLogger.futures) ∧
    countSpec "Loss" 0 sampleLogger.futures = 2 :=
  ⟨⟨by decide, by decide⟩,
    (c1_counter_tracks_pushes sampleLogger "Loss" 0 (by decide) (by decide)).1,
    by decide⟩

/-- C2: `get_serie` returns the series values sorted ascending by key (the
sorted list is a permutation of the stored items), and the concrete
scenario: declare `"Loss"`, issue the pushes `10@1`, `20@2`, `30@5` in any
order, `wait()`; then `get_serie "Loss" = [10, 20, 30]` and
`get_entry_length "Loss" = 3`. -/
theorem c2_serie_sorted_by_key (ps : List (Int × Int))
    (h : ps.Perm [(1, 10), (2, 20), (5, 30)]) :
    (lossScenario ps).map (fun r =>
      (r.1.get_serie "Loss", r.1.get_entry_length "Loss"))
      = .ok (.ok [10, 20, 30], .ok 3) ∧
    ∀ (lg : DataLogger) (e : String) (d : List (Int × Int)),
      dictGet lg.managed.data e = some d →
      ∃ sd, lg.get_serie e = .ok (sd.map Prod.snd) ∧
        List.Sorted pairLe sd ∧ sd.Perm d := by
  constructor
  · have hlen : ps.length = 3 := h.length_eq
    match ps, h, hlen with
    | [a, b, c], h, _ =>
      have ha : a ∈ [((1 : Int), (10 : Int)), (2, 20), (5, 30)] := h.subset (by simp)
      have hb : b ∈ [((1 : Int), (10 : Int)), (2, 20), (5, 30)] := h.subset (by simp)
      have hc : c ∈ [((1 : Int), (10 : Int)), (2, 20), (5, 30)] := h.subset (by simp)
      fin_cases ha <;> fin_cases hb <;> fin_cases hc <;>
        first
          | exact absurd h (by decide)
          | decide
  · intro lg e d hd
    exact ⟨sortPairs d, by simp [DataLogger.get_serie, hd],
           List.sorted_insertionSort pairLe d, List.perm_insertionSort pairLe d⟩

theorem c2_serie_sorted_by_key_witness :
    ([(5, 30), (1, 10), (2, 20)] : List (Int × Int)).Perm
        [(1, 10), (2, 20), (5, 30)] ∧
    (lossScenario [(5, 30), (1, 10), (2, 20)]).map (fun r =>
      (r.1.get_serie "Loss", r.1.get_entry_length "Loss"))
      = .ok (.ok [10, 20, 30], .ok 3) :=
  ⟨by decide, (c2_serie_sorted_by_key [(5, 30), (1, 10), (2, 20)] (by decide)).1⟩

/-- C3: `reset e` submits one reset unit of work, and executing that unit
invokes every `on_reset` handler in registration order with the series
exactly as it stood before clearing; afterwards the series is empty and the
counter is 0. -/
theorem c3_reset_handlers_pre_clear (lg : DataLogger) (e : String)
    (d : List (Int × Int)) (hs : List Handler)
    (hm : lg.mode = "active")
    (hl : e ∈ lg.managed.lockers)
    (hdata : dictGet lg.managed.data e = some d)
    (hhs : dictGet lg.managed.on_reset_callables e = some hs) :
    lg.reset e = { lg with futures := lg.futures ++ [Uow.reset e] } ∧
    ∃ m', uowReset lg.managed e = .ok (m', invokeAll hs e d lg.managed.path) ∧
      ({ lg with managed := m' } : DataLogger).get_serie e = .ok [] ∧
      ({ lg with managed := m' } : DataLogger).get_entry_length e = .ok 0 := by
  refine ⟨by simp [DataLogger.reset, hm], ?_⟩
  refine ⟨_, uowReset_ok_of_declared lg.managed e d hs hl hdata hhs, ?_, ?_⟩
  · simp [DataLogger.get_serie, dictGet_dictSet_self, sortPairs]
  · simp [DataLogger.get_entry_length, dictGet_dictSet_self]

/-- A concrete logger: `"X"` declared with one `on_reset` handler and one
completed push. -/
def resetSample : DataLogger :=
  (((DataLogger.init.declare "X" [] [] [⟨7, false⟩]).bind fun lg =>
      lg.push "X" 42 (some 0)).map fun lg =>
    (lg.wait).1).toOption.getD DataLogger.init

theorem c3_reset_handlers_pre_clear_witness :
    (resetSample.mode = "active" ∧ "X" ∈ resetSample.managed.lockers ∧
      dictGet resetSample.managed.data "X" = some [(0, 42)] ∧
      dictGet resetSample.managed.on_reset_callables "X" = some [⟨7, false⟩]) ∧
    (resetSample.reset "X" =
        { resetSample with futures := resetSample.futures ++ [Uow.reset "X"] } ∧
      ∃ m', uowReset resetSample.managed "X" =
          .ok (m', invokeAll [⟨7, false⟩] "X" [(0, 42)] resetSample.managed.path) ∧
        ({ resetSample with managed := m' } : DataLogger).get_serie "X" = .ok [] ∧
        ({ resetSample with managed := m' } : DataLogger).get_entry_length "X" = .ok 0) :=
  ⟨⟨by decide, by decide, by decide, by decide⟩,
    c3_reset_handlers_pre_clear resetSample "X" [(0, 42)] [⟨7, false⟩]
      (by decide) (by decide) (by decide) (by decide)⟩

/-- C4: in passive mode, `push`, `dump` and `reset` are no-ops: the logger
(series, counters, pending futures, everything) is returned unchanged, so
nothing is submitted and no handler can run. -/
theorem c4_passive_noop (lg : DataLogger) (h : lg.mode = "passive")
    (e : String) (v : Int) (topt : Option Int) :
    lg.push e v topt = .ok lg ∧ lg.dump = lg ∧ lg.reset e = lg := by
  have hne : lg.mode ≠ "active" := by simp [h]
  exact ⟨by simp [DataLogger.push, hne], by simp [DataLogger.dump, hne],
    by simp [DataLogger.reset, hne]⟩

/-- A concrete logger switched to passive mode with one declared entry. -/
def passiveSample : DataLogger :=
  ((DataLogger.init.declare "Loss" [⟨1, false⟩] [] []).bind fun lg =>
    lg.set_mode "passive").toOption.getD DataLogger.init

theorem c4_passive_noop_witness :
    passiveSample.mode = "passive" ∧
    passiveSample.push "Loss" 3 none = .ok passiveSample ∧
    passiveSample.dump = passiveSample ∧
    passiveSample.reset "Loss" = passiveSample :=
  ⟨by decide, c4_passive_noop passiveSample (by decide) "Loss" 3 none⟩

/-- C5: a push whose `on_push` list contains a raising handler still stores
the value, still increments the counter, still invokes every handler of the
list (the event ids are exactly the handler ids, in registration order),
and the unit of work still completes normally with `.ok`. -/
theorem c5_handler_failure_isolated (m : Managed) (e : String) (v t : Int)
    (d : List (Int × Int)) (c : Nat) (hs : List Handler)
    (hl : e ∈ m.lockers) (hdata : dictGet m.data e = some d)
    (hc : dictGet m.counters e = some c)
    (hhs : dictGet m.on_push_callables e = some hs)
    (_hfail : ∃ f ∈ hs, f.fails = true) :
    ∃ m', uowPush m e v t = .ok (m', invokeAll hs e (dictSet d t v) m.path) ∧
      dictGet m'.counters e = some (c + 1) ∧
      dictGet m'.data e = some (dictSet d t v) ∧
      (invokeAll hs e (dictSet d t v) m.path).map HEvent.hid =
        hs.map Handler.hid := by
  refine ⟨_, uowPush_ok_of_declared m e v t d c hs hl hdata hc hhs, ?_, ?_, ?_⟩
  · simp [dictGet_dictSet_self]
  · simp [dictGet_dictSet_self]
  · simp [invokeAll]

/-- A concrete logger: `"L"` declared with a raising `on_push` handler
followed by a well-behaved one. -/
def failSample : DataLogger :=
  (DataLogger.init.declare "L" [⟨1, true⟩, ⟨2, false⟩] [] []).toOption.getD
    DataLogger.init

theorem c5_handler_failure_isolated_witness :
    ("L" ∈ failSample.managed.lockers ∧
      dictGet failSample.managed.data "L" = some [] ∧
      dictGet failSample.managed.counters "L" = some 0 ∧
      dictGet failSample.managed.on_push_callables "L" =
        some [⟨1, true⟩, ⟨2, false⟩] ∧
      ∃ f ∈ ([⟨1, true⟩, ⟨2, false⟩] : List Handler), f.fails = true) ∧
    ∃ m', uowPush failSample.managed "L" 9 4 =
        .ok (m', invokeAll [⟨1, true⟩, ⟨2, false⟩] "L" (dictSet [] 4 9)
          failSample.managed.path) ∧
      dictGet m'.counters "L" = some 1 ∧
      dictGet m'.data "L" = some (dictSet [] 4 9) ∧
      (invokeAll [⟨1, true⟩, ⟨2, false⟩] "L" (dictSet [] 4 9)
          failSample.managed.path).map HEvent.hid =
        ([⟨1, true⟩, ⟨2, false⟩] : List Handler).map Handler.hid :=
  ⟨⟨by decide, by decide, by decide, by decide, by decide⟩,
    c5_handler_failure_isolated failSample.managed "L" 9 4 [] 0
      [⟨1, true⟩, ⟨2, false⟩] (by decide) (by decide) (by decide) (by decide)
      (by decide)⟩

/-- C6: declaring an already-registered name fails with the duplicate-entry
error; the check precedes every mutation, and the failing call's only
output is the error, so the existing entry's handlers, series and counter
are untouched. -/
theorem c6_duplicate_declare (lg : DataLogger) (e : String)
    (p d r : List Handler) (h : e ∈ lg.managed.entries) :
    lg.declare e p d r = .error .duplicateEntry := by
  simp [DataLogger.declare, h]

theorem c6_duplicate_declare_witness :
    "Loss" ∈ sampleLogger.managed.entries ∧
    sampleLogger.declare "Loss" [] [] [] = .error .duplicateEntry :=
  ⟨by decide, c6_duplicate_declare sampleLogger "Loss" [] [] [] (by decide)⟩

/-- C7 counterexample: on a never-declared entry, `reset` and `push` with
an explicit time do not fail synchronously — each returns normally and
submits a unit of work. -/
theorem c7_counterexample :
    DataLogger.init.reset "x" =
      { DataLogger.init with futures := [Uow.reset "x"] } ∧
    DataLogger.init.push "x" 0 (some 0) =
      .ok { DataLogger.init with futures := [Uow.push "x" 0 0] } := by
  exact ⟨by decide, by decide⟩

/-- C7 amended: on an undeclared entry, `get_serie`, `get_entry_length` and
`push` without an explicit time raise a KeyError synchronously; `push` with
an explicit time and `reset` return normally and submit a unit of work
whose execution fails (reported by the completion callback, never raised to
the caller). -/
theorem c7_unknown_entry_amended (lg : DataLogger) (e : String) (v t : Int)
    (hm : lg.mode = "active") (hf : FreshIn lg.managed e) :
    lg.get_serie e = .error (.keyError e) ∧
    lg.get_entry_length e = .error (.keyError e) ∧
    lg.push e v none = .error (.keyError e) ∧
    lg.push e v (some t) =
      .ok { lg with futures := lg.futures ++ [Uow.push e v t] } ∧
    lg.reset e = { lg with futures := lg.futures ++ [Uow.reset e] } ∧
    runTask lg.managed (Uow.push e v t) = .error (.keyError e) ∧
    runTask lg.managed (Uow.reset e) = .error (.keyError e) := by
  obtain ⟨he, hl, hdata, hc⟩ := hf
  refine ⟨?_, ?_, ?_, ?_, ?_, ?_, ?_⟩
  · simp [DataLogger.get_serie, hdata]
  · simp [DataLogger.get_entry_length, hc]
  · simp [DataLogger.push, hm, hc]
  · simp [DataLogger.push, hm]
  · simp [DataLogger.reset, hm]
  · simp [runTask, uowPush, hl]
  · simp [runTask, uowReset, hl]

theorem c7_unknown_entry_amended_witness :
    (DataLogger.init.mode = "active" ∧ FreshIn DataLogger.init.managed "x") ∧
    DataLogger.init.get_serie "x" = .error (.keyError "x") ∧
    DataLogger.init.get_entry_length "x" = .error (.keyError "x") ∧
    DataLogger.init.push "x" 0 none = .error (.keyError "x") ∧
    DataLogger.init.push "x" 0 (some 1) =
      .ok { DataLogger.init with futures := [Uow.push "x" 0 1] } ∧
    DataLogger.init.reset "x" =
      { DataLogger.init with futures := [Uow.reset "x"] } ∧
    runTask DataLogger.init.managed (Uow.push "x" 0 1) =
      .error (.keyError "x") ∧
    runTask DataLogger.init.managed (Uow.reset "x") = .error (.keyError "x") :=
  ⟨⟨by decide, by decide⟩,
    c7_unknown_entry_amended DataLogger.init "x" 0 1 (by decide) (by decide)⟩

/-- C8 counterexample: after an entry is declared (one locker registered),
`set_name` does not fail — it succeeds and changes the logger's name. -/
theorem c8_counterexample :
    (DataLogger.init.declare "e" [] [] []).map (fun lg =>
      ((lg.set_name "renamed").managed.name, lg.managed.lockers.length))
      = .ok ("renamed", 1) := by decide

/-- C8 amended: once any entry is declared, `set_path` and `set_pool` fail
with the configuration-locked error (leaving path and pool unchanged, the
call returning only the error), while `set_name` remains permitted and
just records the new name. -/
theorem c8_config_locked_amended (lg : DataLogger)
    (h : lg.managed.lockers ≠ []) (p k s : String) (n : Nat) :
    lg.set_path p = .error .configurationLocked ∧
    lg.set_pool k n = .error .configurationLocked ∧
    lg.set_name s = { lg with managed := { lg.managed with name := s } } := by
  have hlen : lg.managed.lockers.length ≠ 0 := by simpa using h
  exact ⟨by simp [DataLogger.set_path, hlen],
    by simp [DataLogger.set_pool, hlen], rfl⟩

theorem c8_config_locked_amended_witness :
    sampleLogger.managed.lockers ≠ [] ∧
    sampleLogger.set_path "/tmp" = .error .configurationLocked ∧
    sampleLogger.set_pool "process" 4 = .error .configurationLocked ∧
    sampleLogger.set_name "renamed" =
      { sampleLogger with managed :=
        { sampleLogger.managed with name := "renamed" } } :=
  ⟨by decide, c8_config_locked_amended sampleLogger (by decide) "/tmp"
    "process" "renamed" 4⟩

/-- C9: in active mode the facade's `dump()` appends exactly one dump unit
of work per declared entry, in registration order; executing such a unit on
a declared entry returns the managed state unchanged (no series, no counter
touched) and invokes every `on_dump` handler in registration order with the
entry's current series. -/
theorem c9_dump_units_no_mutation (lg : DataLogger) (hm : lg.mode = "active") :
    lg.dump =
      { lg with futures := lg.futures ++ lg.managed.entries.map Uow.dump } ∧
    ∀ (e : String) (d : List (Int × Int)) (hs : List Handler),
      e ∈ lg.managed.lockers →
      dictGet lg.managed.data e = some d →
      dictGet lg.managed.on_dump_callables e = some hs →
      uowDump lg.managed e = .ok (lg.managed, invokeAll hs e d lg.managed.path) := by
  refine ⟨by simp [DataLogger.dump, hm], ?_⟩
  intro e d hs hl hdata hhs
  exact uowDump_ok_of_declared lg.managed e d hs hl hdata hhs

/-- A concrete logger: `"D"` declared with one `on_dump` handler and one
completed push. -/
def dumpSample : DataLogger :=
  (((DataLogger.init.declare "D" [] [⟨3, false⟩] []).bind fun lg =>
      lg.push "D" 8 (some 2)).map fun lg =>
    (lg.wait).1).toOption.getD DataLogger.init

theorem c9_dump_units_no_mutation_witness :
    (dumpSample.mode = "active" ∧ "D" ∈ dumpSample.managed.lockers ∧
      dictGet dumpSample.managed.data "D" = some [(2, 8)] ∧
      dictGet dumpSample.managed.on_dump_callables "D" = some [⟨3, false⟩]) ∧
    dumpSample.dump =
      { dumpSample with futures :=
          dumpSample.futures ++ dumpSample.managed.entries.map Uow.dump } ∧
    uowDump dumpSample.managed "D" =
      .ok (dumpSample.managed,
        invokeAll [⟨3, false⟩] "D" [(2, 8)] dumpSample.managed.path) :=
  ⟨⟨by decide, by decide, by decide, by decide⟩,
    (c9_dump_units_no_mutation dumpSample (by decide)).1,
    (c9_dump_units_no_mutation dumpSample (by decide)).2 "D" [(2, 8)]
      [⟨3, false⟩] (by decide) (by decide) (by decide)⟩

/-- C10: two pushes to the same entry with the same explicit time key: the
second stored value overwrites the first while the counter counts both, so
after `wait()` the counter reads 2 but the serie has a single element
holding the second value. -/
theorem c10_counter_exceeds_serie :
    ((DataLogger.init.declare "e" [] [] []).bind fun lg =>
      (lg.push "e" 10 (some 7)).bind fun lg =>
      (lg.push "e" 20 (some 7)).map fun lg =>
        ((lg.wait).1.get_entry_length "e", (lg.wait).1.get_serie "e"))
      = .ok (.ok 2, .ok [20]) := by decide
